import Mathlib

/-!
Verification of the event-processing core of a real-time git collaboration
monitor: payload normalization (`generate_title`, `parse_event` from
`processor.py`), conflict detection (`detect_conflicts`), the bounded
recent-event store with retry (`redis_client.py`) and the WebSocket
broadcast hub (`websocket_manager.py`).

Modelling conventions:
* Raw webhook payloads are open dictionaries; we model exactly the fields the
  code reads, each as an `Option` (absent key = `none`).
* Timestamps are instants in whole seconds (`Int`); `datetime.fromisoformat`
  is modelled by storing the parse result directly: an `Option Int` field
  that is `none` when the key is missing or the string does not parse
  (the code treats both the same way at every use site).
* `uuid.uuid4()` and `datetime.now()` are nondeterministic inputs of
  normalization and are passed in as explicit parameters.
* Python string formatting is modelled with `++`; the single-quote character
  used inside alert messages is produced by `squo` below.
-/

/-- The single-quote character used in Python f-strings of the source. -/
def squo : String := String.singleton (Char.ofNat 39)

/-- Executable lexicographic comparison of char lists by code point; this is
the order Python uses to sort lists of strings. -/
def charListLe : List Char → List Char → Bool
  | [], _ => true
  | _ :: _, [] => false
  | a :: as, b :: bs => if a < b then true else if b < a then false else charListLe as bs

/-- Executable string comparison, agreeing with `≤` (see `strLeB_iff`). -/
def strLeB (a b : String) : Bool := charListLe a.data b.data

theorem charListLe_iff : ∀ as bs : List Char, charListLe as bs = true ↔ ¬ bs < as
  | [], bs => by
    simp only [charListLe]
    constructor
    · intro _ h
      cases h
    · intro _
      trivial
  | a :: as, [] => by
    simp only [charListLe]
    constructor
    · intro h
      cases h
    · intro h
      exact absurd (List.nil_lt_cons a as) h
  | a :: as, b :: bs => by
    simp only [charListLe]
    by_cases hab : a < b
    · rw [if_pos hab]
      simp only [true_iff]
      intro h
      cases h with
      | cons h2 => exact lt_irrefl _ hab
      | rel h2 => exact lt_asymm h2 hab
    · by_cases hba : b < a
      · rw [if_neg hab, if_pos hba]
        simp only [Bool.false_eq_true, false_iff, not_not]
        exact List.Lex.rel hba
      · have heq : a = b := le_antisymm (le_of_not_lt hba) (le_of_not_lt hab)
        subst heq
        rw [if_neg hab, if_neg hba, charListLe_iff as bs]
        constructor
        · intro h hc
          cases hc with
          | cons h2 => exact h h2
          | rel h2 => exact hab h2
        · intro h hc
          exact h (List.Lex.cons hc)

theorem strLeB_iff (a b : String) : strLeB a b = true ↔ a ≤ b := by
  rw [strLeB, charListLe_iff, String.le_iff_toList_le]
  exact not_lt

/-- Models Python `sorted(<set of strings>)`: drop duplicates, then sort. -/
def sortedDedup (l : List String) : List String :=
  (l.dedup).insertionSort (fun a b => strLeB a b = true)

theorem sortedDedup_sorted (l : List String) :
    (sortedDedup l).Sorted (· ≤ ·) := by
  haveI h1 : IsTotal String (fun a b => strLeB a b = true) :=
    ⟨fun a b => by
      rw [strLeB_iff, strLeB_iff]
      exact le_total a b⟩
  haveI h2 : IsTrans String (fun a b => strLeB a b = true) :=
    ⟨fun a b c hab hbc => by
      rw [strLeB_iff] at *
      exact le_trans hab hbc⟩
  have h := List.sorted_insertionSort (fun a b => strLeB a b = true) l.dedup
  exact h.imp (fun {a b} hab => (strLeB_iff a b).mp hab)

theorem sortedDedup_perm (l : List String) :
    List.Perm (sortedDedup l) l.dedup :=
  List.perm_insertionSort _ _

theorem sortedDedup_nodup (l : List String) : (sortedDedup l).Nodup :=
  (sortedDedup_perm l).nodup_iff.mpr l.nodup_dedup

theorem mem_sortedDedup {a : String} {l : List String} :
    a ∈ sortedDedup l ↔ a ∈ l := by
  rw [sortedDedup, (List.perm_insertionSort _ _).mem_iff, List.mem_dedup]

theorem sortedDedup_ne_nil {l : List String} (h : l ≠ []) :
    sortedDedup l ≠ [] := by
  rcases l with _ | ⟨a, t⟩
  · exact absurd rfl h
  · intro hcon
    have : a ∈ sortedDedup (a :: t) := mem_sortedDedup.mpr (List.mem_cons_self a t)
    rw [hcon] at this
    exact (List.not_mem_nil a) this

/-! ## Payload model (the dictionary keys read by `processor.py`) -/

/-- Fields read from `payload["sender"]` (and from `pull_request["user"]`). -/
structure SenderInfo where
  login : Option String
  avatar_url : Option String
deriving DecidableEq

/-- Fields read from `payload["pusher"]`. -/
structure PusherInfo where
  name : Option String
deriving DecidableEq

/-- Fields read from `payload["repository"]`. -/
structure RepoInfo where
  full_name : Option String
deriving DecidableEq

/-- Fields read from `pull_request["base"]` / `pull_request["head"]`. -/
structure RefInfo where
  ref : Option String
deriving DecidableEq

/-- Fields read from `payload["pull_request"]`. -/
structure PullRequestInfo where
  user : Option SenderInfo
  number : Option Nat
  title : Option String
  merged : Option Bool
  base : Option RefInfo
  head : Option RefInfo
  html_url : Option String
deriving DecidableEq

/-- Fields read from `payload["issue"]`. -/
structure IssueInfo where
  number : Option Nat
  title : Option String
  html_url : Option String
deriving DecidableEq

/-- Fields read from each element of `payload["commits"]`. -/
structure CommitInfo where
  added : Option (List String)
  modified : Option (List String)
  removed : Option (List String)
deriving DecidableEq

/-- The raw webhook payload: every key the processor reads, all optional. -/
structure Payload where
  pusher : Option PusherInfo
  commits : Option (List CommitInfo)
  ref : Option String
  ref_type : Option String
  action : Option String
  sender : Option SenderInfo
  repository : Option RepoInfo
  pull_request : Option PullRequestInfo
  issue : Option IssueInfo
  before : Option String
  after : Option String
  compare : Option String
deriving DecidableEq

/-- A payload in which every key is absent. -/
def emptyPayload : Payload :=
  { pusher := none, commits := none, ref := none, ref_type := none
    action := none, sender := none, repository := none, pull_request := none
    issue := none, before := none, after := none, compare := none }

/-- Python `str.split(sep)` for a one-character separator, on the char list
of the string (an executable equivalent of `String.splitOn`). -/
def splitOnChar (c : Char) : List Char → List (List Char)
  | [] => [[]]
  | x :: xs =>
    match splitOnChar c xs with
    | [] => [[x]]
    | s :: ss => if x = c then [] :: s :: ss else (x :: s) :: ss

/-- Python `ref.split("/")[-1] if "/" in ref else ref`. -/
def lastSegment (r : String) : String :=
  if r.data.contains '/' then ((splitOnChar '/' r.data).getLastD []).asString
  else r

/-- Python f-string interpolation of `d.get("number", "?")`. -/
def numToStr : Option Nat → String
  | some n => toString n
  | none => "?"

/-! ## `generate_title` (processor.py lines 16-69) -/

/-- Translation of `generate_title`: one human-readable line per event kind. -/
def generate_title (event_type : String) (payload : Payload) : String :=
  if event_type = "push" then
    let pusher := (payload.pusher.bind PusherInfo.name).getD "someone"
    let commits := payload.commits.getD []
    let ref := payload.ref.getD ""
    let branch := lastSegment ref
    let count := commits.length
    let noun := if count = 1 then "commit" else "commits"
    pusher ++ " pushed " ++ toString count ++ " " ++ noun ++ " to " ++ branch
  else if event_type = "pull_request" then
    let pr := payload.pull_request
    let action := payload.action.getD "updated"
    let user := ((pr.bind PullRequestInfo.user).bind SenderInfo.login).getD "someone"
    let number := numToStr (pr.bind PullRequestInfo.number)
    let title := (pr.bind PullRequestInfo.title).getD ""
    let merged := (pr.bind PullRequestInfo.merged).getD false
    if action = "closed" ∧ merged then
      let base := ((pr.bind PullRequestInfo.base).bind RefInfo.ref).getD "main"
      user ++ " merged pull request #" ++ number ++ " into " ++ base
    else
      user ++ " " ++ action ++ " PR #" ++ number ++ ": " ++ title
  else if event_type = "create" then
    let ref_type := payload.ref_type.getD "branch"
    let ref_name := payload.ref.getD "unknown"
    let sender := (payload.sender.bind SenderInfo.login).getD "someone"
    sender ++ " created " ++ ref_type ++ " " ++ ref_name
  else if event_type = "delete" then
    let ref_type := payload.ref_type.getD "branch"
    let ref_name := payload.ref.getD "unknown"
    let sender := (payload.sender.bind SenderInfo.login).getD "someone"
    sender ++ " deleted " ++ ref_type ++ " " ++ ref_name
  else if event_type = "issues" then
    let action := payload.action.getD "updated"
    let issue := payload.issue
    let sender := (payload.sender.bind SenderInfo.login).getD "someone"
    let number := numToStr (issue.bind IssueInfo.number)
    let title := (issue.bind IssueInfo.title).getD ""
    sender ++ " " ++ action ++ " issue #" ++ number ++ ": " ++ title
  else
    let sender := (payload.sender.bind SenderInfo.login).getD "someone"
    sender ++ " triggered " ++ event_type ++ " event"

/-! ## `parse_event` (processor.py lines 90-169) -/

/-- Source `_extract_files_changed`: the sorted set of file paths appearing
in `added`, `modified` or `removed` of any commit of the payload. -/
def extract_files_changed (payload : Payload) : List String :=
  sortedDedup ((payload.commits.getD []).flatMap fun c =>
    c.added.getD [] ++ c.modified.getD [] ++ c.removed.getD [])

/-- The alert dictionary built by `detect_conflicts`. -/
structure ConflictAlert where
  type : String
  severity : String
  message : String
  branches : List String
  conflicting_files : List String
deriving DecidableEq

/-- The event-type-specific `details` mapping of a normalized event. -/
inductive Details where
  | empty
  | push (commits : Nat) (before after compare_url : String)
  | pr (action : String) (pr_number : Option Nat)
       (pr_title source_branch target_branch : String)
       (merged : Bool) (html_url : String)
  | refChange (ref_type : String)
  | issue (action : String) (issue_number : Option Nat)
          (issue_title html_url : String)
deriving DecidableEq

/-- The commit count recorded in a `details` mapping (0 when absent). -/
def detailsCommitCount : Details → Nat
  | Details.push c _ _ _ => c
  | _ => 0

/-- The normalized event dictionary produced by `parse_event`. -/
structure GitEvent where
  id : String
  timestamp : String
  event_type : String
  actor : String
  actor_avatar : String
  repository : String
  branch : String
  title : String
  details : Details
  files_changed : List String
  alert : Option ConflictAlert
deriving DecidableEq

/-- Translation of `parse_event`. `idv` models `str(uuid.uuid4())` and
`now` models `datetime.now(timezone.utc).isoformat()`. -/
def parse_event (idv now : String) (event_type : String) (payload : Payload) :
    GitEvent :=
  let sender := payload.sender
  let repo := payload.repository
  let base : GitEvent :=
    { id := idv
      timestamp := now
      event_type := event_type
      actor := (sender.bind SenderInfo.login).getD "unknown"
      actor_avatar := (sender.bind SenderInfo.avatar_url).getD ""
      repository := (repo.bind RepoInfo.full_name).getD "unknown/unknown"
      branch := ""
      title := generate_title event_type payload
      details := Details.empty
      files_changed := []
      alert := none }
  if event_type = "push" then
    let ref := payload.ref.getD ""
    { base with
      branch := lastSegment ref
      files_changed := extract_files_changed payload
      details := Details.push (payload.commits.getD []).length
        (payload.before.getD "") (payload.after.getD "")
        (payload.compare.getD "") }
  else if event_type = "pull_request" then
    let pr := payload.pull_request
    let action := payload.action.getD ""
    let merged := (pr.bind PullRequestInfo.merged).getD false
    { base with
      event_type := if action = "closed" ∧ merged then "merge" else "pull_request"
      branch := ((pr.bind PullRequestInfo.head).bind RefInfo.ref).getD ""
      details := Details.pr action (pr.bind PullRequestInfo.number)
        ((pr.bind PullRequestInfo.title).getD "")
        (((pr.bind PullRequestInfo.head).bind RefInfo.ref).getD "")
        (((pr.bind PullRequestInfo.base).bind RefInfo.ref).getD "")
        merged ((pr.bind PullRequestInfo.html_url).getD "") }
  else if event_type = "create" then
    { base with
      event_type := "branch_create"
      branch := payload.ref.getD ""
      details := Details.refChange (payload.ref_type.getD "branch") }
  else if event_type = "delete" then
    { base with
      event_type := "branch_delete"
      branch := payload.ref.getD ""
      details := Details.refChange (payload.ref_type.getD "branch") }
  else if event_type = "issues" then
    let issue := payload.issue
    { base with
      details := Details.issue (payload.action.getD "")
        (issue.bind IssueInfo.number)
        ((issue.bind IssueInfo.title).getD "")
        ((issue.bind IssueInfo.html_url).getD "") }
  else base

/-! ## `detect_conflicts` (processor.py lines 172-243) -/

/-- An event dictionary as read back from the recent-events store, with the
four keys `detect_conflicts` consults; all optional, since stored events are
arbitrary dictionaries. The `timestamp` field holds the result of
`datetime.fromisoformat` on the stored string (`none` when the key is
missing or the string does not parse; the code skips the candidate, or falls
back to now for the new event, in both cases alike). -/
structure REvent where
  event_type : Option String
  branch : Option String
  timestamp : Option Int
  files_changed : Option (List String)
deriving DecidableEq

/-- The elements of `new_files` that also occur in the candidate event:
models `new_files.intersection(set(ev.get("files_changed", [])))`.
The final alert sorts and deduplicates, so list order is irrelevant. -/
def evOverlap (newFiles : List String) (ev : REvent) : List String :=
  newFiles.filter (fun f => f ∈ ev.files_changed.getD [])

/-- The body of the candidate loop of `detect_conflicts`, one candidate at a
time. The accumulator is `(conflicting_files, conflict_branches)`; branches
are deduplicated at the end (the source uses a set). -/
def conflictStep (newBranch : String) (newTs window : Int)
    (newFiles : List String) (acc : List String × List String)
    (ev : REvent) : List String × List String :=
  if ev.event_type ≠ some "push" then acc
  else
    let evBranch := ev.branch.getD ""
    if evBranch = newBranch ∨ evBranch = "" then acc
    else
      match ev.timestamp with
      | none => acc
      | some evTs =>
        if newTs - evTs > window then acc
        else
          let overlap := evOverlap newFiles ev
          if overlap = [] then acc
          else (acc.1 ++ overlap, acc.2 ++ [evBranch])

/-- The alert value built at the end of `detect_conflicts` (processor.py
lines 229-243) from the accumulated conflicting files and branches. -/
def buildAlert (newBranch : String) (files branches : List String) :
    ConflictAlert :=
  let uniqueFiles := sortedDedup files
  let branchesList := sortedDedup branches
  let severity := if 3 ≤ uniqueFiles.length then "high" else "medium"
  { type := "conflict_risk"
    severity := severity
    message := "Branch " ++ squo ++ newBranch ++ squo ++ " and " ++
      squo ++ branchesList.getD 0 "" ++ squo ++ " both modified " ++
      squo ++ uniqueFiles.getD 0 "" ++ squo ++
      (if 1 < uniqueFiles.length then
        " and " ++ toString (uniqueFiles.length - 1) ++ " more file(s)"
      else "")
    branches := newBranch :: branchesList
    conflicting_files := uniqueFiles }

/-- Translation of `detect_conflicts`. `now` models
`datetime.now(timezone.utc)`, the fallback when the new event has no
parseable timestamp; the 10-minute window is 600 seconds. -/
def detect_conflicts (now : Int) (newEvent : REvent)
    (recentEvents : List REvent) : Option ConflictAlert :=
  if newEvent.event_type ≠ some "push" then none
  else
    let newFiles := newEvent.files_changed.getD []
    if newFiles = [] then none
    else
      let newBranch := newEvent.branch.getD ""
      let newTs := newEvent.timestamp.getD now
      let window : Int := 600
      let acc := recentEvents.foldl (conflictStep newBranch newTs window newFiles) ([], [])
      if acc.1 = [] then none
      else some (buildAlert newBranch acc.1 acc.2)

/-- The conditions under which a candidate contributes to the alert, read
off the guards of the loop of `detect_conflicts`. -/
def evContributes (newBranch : String) (newTs window : Int)
    (newFiles : List String) (ev : REvent) : Bool :=
  (ev.event_type = some "push") &&
  !(ev.branch.getD "" = newBranch || ev.branch.getD "" = "") &&
  (match ev.timestamp with
   | none => false
   | some evTs => !(newTs - evTs > window)) &&
  !(evOverlap newFiles ev = [])

theorem evContributes_iff (newBranch : String) (newTs window : Int)
    (newFiles : List String) (ev : REvent) :
    evContributes newBranch newTs window newFiles ev = true ↔
      ev.event_type = some "push" ∧ ev.branch.getD "" ≠ newBranch ∧
      ev.branch.getD "" ≠ "" ∧
      (∃ ts, ev.timestamp = some ts ∧ newTs - ts ≤ window) ∧
      evOverlap newFiles ev ≠ [] := by
  rcases ev with ⟨et, br, ts, fc⟩
  rcases ts with _ | t <;>
    simp [evContributes, not_or, not_lt, and_assoc]

theorem conflictStep_eq (newBranch : String) (newTs window : Int)
    (newFiles : List String) (acc : List String × List String) (ev : REvent) :
    conflictStep newBranch newTs window newFiles acc ev =
      if evContributes newBranch newTs window newFiles ev = true then
        (acc.1 ++ evOverlap newFiles ev, acc.2 ++ [ev.branch.getD ""])
      else acc := by
  rcases ev with ⟨et, br, ts, fc⟩
  rcases ts with _ | t <;>
    simp only [conflictStep, evContributes, evOverlap] <;>
    split_ifs <;>
    simp_all [not_or, not_lt]

/-- Unfolds the candidate scan: the accumulated conflicting files are the
concatenated overlaps of the contributing candidates, and the accumulated
branches are their branch names, in scan order. -/
theorem foldl_conflictStep (newBranch : String) (newTs window : Int)
    (newFiles : List String) (l : List REvent)
    (acc : List String × List String) :
    l.foldl (conflictStep newBranch newTs window newFiles) acc =
      (acc.1 ++ (l.filter (evContributes newBranch newTs window newFiles)).flatMap
          (evOverlap newFiles),
       acc.2 ++ (l.filter (evContributes newBranch newTs window newFiles)).map
          (fun ev => ev.branch.getD "")) := by
  induction l generalizing acc with
  | nil => simp
  | cons e t ih =>
    rw [List.foldl_cons, conflictStep_eq, ih]
    by_cases h : evContributes newBranch newTs window newFiles e = true <;>
      simp [h, List.filter_cons]

theorem buildAlert_type (nb : String) (f b : List String) :
    (buildAlert nb f b).type = "conflict_risk" := rfl

theorem buildAlert_branches (nb : String) (f b : List String) :
    (buildAlert nb f b).branches = nb :: sortedDedup b := rfl

theorem buildAlert_files (nb : String) (f b : List String) :
    (buildAlert nb f b).conflicting_files = sortedDedup f := rfl

theorem buildAlert_severity (nb : String) (f b : List String) :
    (buildAlert nb f b).severity =
      if 3 ≤ (sortedDedup f).length then "high" else "medium" := rfl

/-- Structural description of a fired alert: it is `buildAlert` applied to
the overlaps and branch names of the contributing candidates of the scan,
and the accumulated file list is non-empty. -/
theorem detect_conflicts_spec (now : Int) (new : REvent) (l : List REvent)
    (a : ConflictAlert) (h : detect_conflicts now new l = some a) :
    a = buildAlert (new.branch.getD "")
        ((l.filter (evContributes (new.branch.getD "")
            (new.timestamp.getD now) 600 (new.files_changed.getD []))).flatMap
          (evOverlap (new.files_changed.getD [])))
        ((l.filter (evContributes (new.branch.getD "")
            (new.timestamp.getD now) 600 (new.files_changed.getD []))).map
          (fun ev => ev.branch.getD "")) ∧
      (l.filter (evContributes (new.branch.getD "")
          (new.timestamp.getD now) 600 (new.files_changed.getD []))).flatMap
        (evOverlap (new.files_changed.getD [])) ≠ [] := by
  by_cases h1 : new.event_type = some "push"
  case neg => exact absurd h (by simp [detect_conflicts, h1])
  by_cases h2 : new.files_changed.getD [] = []
  case pos => exact absurd h (by simp [detect_conflicts, h1, h2])
  by_cases h3 : (l.filter (evContributes (new.branch.getD "")
      (new.timestamp.getD now) 600 (new.files_changed.getD []))).flatMap
    (evOverlap (new.files_changed.getD [])) = []
  case pos =>
    exact absurd h (by simp [detect_conflicts, foldl_conflictStep, h1, h2, h3])
  simp only [detect_conflicts, foldl_conflictStep, List.nil_append, h1, h2, h3,
    ne_eq, not_true_eq_false, not_false_eq_true, if_false, if_true,
    Option.some.injEq] at h
  exact ⟨h.symm, h3⟩

/-! ## WebSocket manager (websocket_manager.py)

Connections are modelled by numeric handles plus a behavior oracle giving
the outcome of each transport operation: `acceptOk` is whether
`websocket.accept()` succeeds, `seedOk k` whether the k-th `send_json`
during the seed loop succeeds, and `sendOk m` whether `send_text(m)`
succeeds. The active-connection set is a duplicate-free list of handles. -/

structure ConnBehavior where
  acceptOk : Bool
  seedOk : Nat → Bool
  sendOk : String → Bool

/-- Python `set.add`. -/
def wsAdd (st : List Nat) (w : Nat) : List Nat :=
  if w ∈ st then st else st ++ [w]

/-- The seed loop of `connect`: send events one by one, stopping at the
first failure (the source catches the exception and breaks). Returns the
events actually delivered. -/
def seedSend {α : Type} (ok : Nat → Bool) : Nat → List α → List α
  | _, [] => []
  | k, e :: es => if ok k then e :: seedSend ok (k + 1) es else []

/-- Translation of `WebSocketManager.connect`: accept (an accept failure
propagates, modelled as `Except.error`), add to the active set, then send
the first 10 recent events until one fails. Returns the new active set and
the seed events delivered to the new connection. -/
def wsConnect {α : Type} (beh : Nat → ConnBehavior) (st : List Nat) (w : Nat)
    (recentEvents : List α) : Except Unit (List Nat × List α) :=
  if (beh w).acceptOk then
    Except.ok (wsAdd st w, seedSend (beh w).seedOk 0 (recentEvents.take 10))
  else Except.error ()

/-- Python `set.discard` of `WebSocketManager.disconnect`. -/
def wsDisconnect (st : List Nat) (w : Nat) : List Nat :=
  st.erase w

/-- Translation of `WebSocketManager.broadcast`: try `send_text` on every
active connection, collect the ones that fail, then discard them from the
active set. Returns the new active set and the connections that received
the message. -/
def wsBroadcast (beh : Nat → ConnBehavior) (st : List Nat) (message : String) :
    List Nat × List Nat :=
  let dead := st.filter (fun w => !((beh w).sendOk message))
  (st.filter (fun w => decide (w ∉ dead)),
   st.filter (fun w => (beh w).sendOk message))

/-- Delivery characterization of `seedSend`: if the first `k` sends succeed
and the next fails (or the list runs out first), exactly the first `k`
events are delivered. -/
theorem seedSend_take {α : Type} (ok : Nat → Bool) (k : Nat) :
    ∀ (l : List α) (i : Nat), (∀ j, j < k → ok (i + j) = true) →
      ok (i + k) = false → seedSend ok i l = l.take k := by
  induction k with
  | zero =>
    intro l i _ hk
    rcases l with _ | ⟨e, es⟩
    · simp [seedSend]
    · simp only [seedSend, Nat.add_zero] at *
      simp [hk]
  | succ k ih =>
    intro l i hj hk
    rcases l with _ | ⟨e, es⟩
    · simp [seedSend]
    · have h0 : ok i = true := by simpa using hj 0 (Nat.succ_pos k)
      simp only [seedSend, h0, if_true, List.take_succ_cons]
      congr 1
      refine ih es (i + 1) (fun j hjk => ?_) ?_
      · have := hj (j + 1) (Nat.succ_lt_succ hjk)
        simpa [Nat.add_comm, Nat.add_assoc, Nat.add_left_comm] using this
      · simpa [Nat.add_comm, Nat.add_assoc, Nat.add_left_comm] using hk

/-! ## Event store (redis_client.py)

The Redis list `recent-events` is modelled as a Lean list whose head is the
most recently pushed element. `LRANGE`/`LTRIM` index semantics follow
Redis: negative indices count from the end of the list, a stop index past
the end is clamped, and an empty range yields the empty list. Stored and
published values are kept as abstract values (serialization is assumed to
round-trip, as required of the wire format). -/

/-- Redis index normalization: negative indices count from the end. -/
def redisIdx (len : Nat) (i : Int) : Int :=
  if i < 0 then (len : Int) + i else i

/-- Redis `LRANGE key start stop` on a list whose head is index 0. -/
def lrange {α : Type} (l : List α) (start stop : Int) : List α :=
  let s := max (redisIdx l.length start) 0
  let e := redisIdx l.length stop
  if e < s then [] else (l.drop s.toNat).take (e - s + 1).toNat

/-- Redis `LTRIM key start stop` keeps exactly the `LRANGE` of the list. -/
def ltrim {α : Type} (l : List α) (start stop : Int) : List α :=
  lrange l start stop

/-- MAX_RECENT_EVENTS of redis_client.py. -/
def MAX_RECENT_EVENTS : Nat := 100

/-- The pipeline body `_do` of `publish_event`: publish on the channel,
LPUSH the payload and LTRIM to capacity. First component is the new list
state, second the message published on the channel. -/
def publish_pipeline {α : Type} (st : List α) (e : α) : List α × α :=
  (ltrim (e :: st) 0 ((MAX_RECENT_EVENTS : Int) - 1), e)

/-- The list state after `publish_event` succeeds. -/
def appendEvent {α : Type} (st : List α) (e : α) : List α :=
  (publish_pipeline st e).1

/-- The body `_do` of `get_recent_events`. -/
def get_recent_body {α : Type} (st : List α) (count : Int) : List α :=
  lrange st 0 (count - 1)

/-! ## Retry logic (`_retry`, redis_client.py lines 63-84)

An attempt oracle `f : Nat → Except E A` gives the outcome of the k-th
call of `coro_factory`. The loop keeps the last exception and re-raises it
once the attempts are exhausted; before that it sleeps `delay` between
attempts. The result records the raised/returned value and the list of
sleeps performed (`delay` is 1.0 seconds at every call site, modelled as
one abstract time unit). When `retries = 0` the source would re-raise the
initial `None`; the error type `Option E` keeps that case representable. -/

def retryAux {E A : Type} (f : Nat → Except E A) (delay : Nat) :
    Nat → Option E → Nat → Except (Option E) A × List Nat
  | _, last, 0 => (Except.error last, [])
  | attempt, _, remaining + 1 =>
    match f attempt with
    | Except.ok a => (Except.ok a, [])
    | Except.error e =>
      if remaining = 0 then (Except.error (some e), [])
      else
        let p := retryAux f delay (attempt + 1) (some e) remaining
        (p.1, delay :: p.2)

/-- Translation of `_retry`: run the attempts, starting at attempt 0 with
no exception recorded yet. -/
def retryRun {E A : Type} (f : Nat → Except E A) (retries delay : Nat) :
    Except (Option E) A × List Nat :=
  retryAux f delay 0 none retries

/-- Injection of a single attempt outcome into the retry result type. -/
def exceptToOpt {E A : Type} : Except E A → Except (Option E) A
  | Except.ok a => Except.ok a
  | Except.error e => Except.error (some e)

/-! ## Store operations wrapped in `_retry`

`publish_event`, `get_recent_events` and `get_stats` each build a
zero-argument `_do` closure over the current backend state and pass it to
`_retry`. The attempt oracle `att k` tells whether the k-th attempt against
the backend succeeds; a successful attempt returns the value of the body. -/

/-- Translation of `publish_event` (redis_client.py lines 87-105). -/
def publish_event {α : Type} (att : Nat → Bool) (st : List α) (e : α) :
    Except (Option Unit) (List α × α) × List Nat :=
  retryRun (fun k => if att k then Except.ok (publish_pipeline st e)
                     else Except.error ()) 3 1

/-- Translation of `get_recent_events` (redis_client.py lines 108-124). -/
def get_recent_events {α : Type} (att : Nat → Bool) (st : List α)
    (count : Int) : Except (Option Unit) (List α) × List Nat :=
  retryRun (fun k => if att k then Except.ok (get_recent_body st count)
                     else Except.error ()) 3 1

/-- An event as consulted by the statistics loop of `get_stats`:
`timestamp` is the `fromisoformat` parse result (`none` when missing or
unparseable), `alert` the truthiness of the stored `alert` value. -/
structure StoredEvent where
  timestamp : Option Int
  branch : Option String
  actor : Option String
  alert : Bool
deriving DecidableEq

/-- The statistics dictionary returned by `get_stats`. -/
structure Stats where
  total_events_today : Nat
  active_contributors : Nat
  branches_modified : Nat
  conflict_alerts : Nat
deriving DecidableEq

/-- One iteration of the statistics loop. The accumulator is
`(total_today, contributors_hour, branches_today, conflict_count)`; the two
set-valued components are accumulated as lists and deduplicated at the end. -/
def statsStep (todayStart hourAgo : Int)
    (acc : Nat × List String × List String × Nat) (ev : StoredEvent) :
    Nat × List String × List String × Nat :=
  match ev.timestamp with
  | none => acc
  | some ts =>
    let acc :=
      if todayStart ≤ ts then
        (acc.1 + 1,
         acc.2.1,
         (if ev.branch.getD "" ≠ "" then acc.2.2.1 ++ [ev.branch.getD ""]
          else acc.2.2.1),
         acc.2.2.2 + (if ev.alert then 1 else 0))
      else acc
    if hourAgo ≤ ts then (acc.1, acc.2.1 ++ [ev.actor.getD ""], acc.2.2.1, acc.2.2.2)
    else acc

/-- The body `_do` of `get_stats`: scan the first 100 stored events.
`todayStart` and `hourAgo` model the two cutoffs computed from `now`. -/
def statsOf (st : List StoredEvent) (todayStart hourAgo : Int) : Stats :=
  let events := lrange st 0 ((MAX_RECENT_EVENTS : Int) - 1)
  let acc := events.foldl (statsStep todayStart hourAgo) (0, [], [], 0)
  { total_events_today := acc.1
    active_contributors := acc.2.1.dedup.length
    branches_modified := acc.2.2.1.dedup.length
    conflict_alerts := acc.2.2.2 }

/-- Translation of `get_stats` (redis_client.py lines 127-174). -/
def get_stats (att : Nat → Bool) (st : List StoredEvent)
    (todayStart hourAgo : Int) : Except (Option Unit) Stats × List Nat :=
  retryRun (fun k => if att k then Except.ok (statsOf st todayStart hourAgo)
                     else Except.error ()) 3 1

/-! ## Claims -/

theorem sortedDedup_nil : sortedDedup [] = [] := rfl

theorem lastSegment_empty : lastSegment "" = "" := rfl

/-- C4: for every event kind and every partial raw payload, normalization
(`parse_event` with `generate_title`, both total functions of the payload)
degrades each absent field to its documented default: actor `unknown`,
avatar empty, repository `unknown/unknown`, branch empty, commit count 0,
empty `files_changed`, and empty `details` for kinds without a dedicated
handler. -/
theorem C4_parse_event_defaults (idv now et : String) (p : Payload) :
    (p.sender = none →
      (parse_event idv now et p).actor = "unknown" ∧
      (parse_event idv now et p).actor_avatar = "") ∧
    (p.repository = none →
      (parse_event idv now et p).repository = "unknown/unknown") ∧
    (p.ref = none → p.pull_request = none →
      (parse_event idv now et p).branch = "") ∧
    (p.commits = none →
      (parse_event idv now et p).files_changed = [] ∧
      detailsCommitCount (parse_event idv now et p).details = 0) ∧
    (et ≠ "push" → et ≠ "pull_request" → et ≠ "create" → et ≠ "delete" →
      et ≠ "issues" →
      (parse_event idv now et p).details = Details.empty ∧
      (parse_event idv now et p).files_changed = []) := by
  refine ⟨fun hs => ?_, fun hr => ?_, fun hrf hpr => ?_, fun hc => ?_,
    fun n1 n2 n3 n4 n5 => ?_⟩
  · simp only [parse_event]
    split_ifs <;> simp [hs]
  · simp only [parse_event]
    split_ifs <;> simp [hr]
  · simp only [parse_event]
    split_ifs <;> simp [hrf, hpr, lastSegment_empty]
  · simp only [parse_event]
    split_ifs <;>
      simp [hc, extract_files_changed, sortedDedup_nil, detailsCommitCount]
  · simp only [parse_event]
    split_ifs <;> simp_all

/-- C4 witness: the defaults hold concretely on the all-absent payload for a
passthrough event kind. -/
theorem C4_parse_event_defaults_witness :
    emptyPayload.sender = none ∧
    (parse_event "id0" "t0" "zzz" emptyPayload).actor = "unknown" ∧
    (parse_event "id0" "t0" "zzz" emptyPayload).details = Details.empty := by
  refine ⟨rfl, ?_, ?_⟩
  · exact ((C4_parse_event_defaults "id0" "t0" "zzz" emptyPayload).1 rfl).1
  · exact ((C4_parse_event_defaults "id0" "t0" "zzz" emptyPayload).2.2.2.2
      (by decide) (by decide) (by decide) (by decide) (by decide)).1

/-- A push payload with exactly one commit, used against C9. -/
def c9payload : Payload :=
  { emptyPayload with
    pusher := some { name := some "alice" }
    commits := some [{ added := none, modified := none, removed := none }]
    ref := some "refs/heads/main" }

/-- C9 counterexample: at commit count n = 1 the title uses the singular
word, not the plural one the claim prescribes exactly at n = 1 (and at
n = 2 the code uses the plural, where the claim prescribes the singular). -/
theorem C9_counterexample :
    generate_title "push" c9payload = "alice pushed 1 commit to main" ∧
    generate_title "push" c9payload ≠ "alice pushed 1 commits to main" ∧
    generate_title "push"
        { c9payload with commits := some [⟨none, none, none⟩, ⟨none, none, none⟩] } =
      "alice pushed 2 commits to main" :=
  ⟨rfl, by decide, rfl⟩

/-- C9 amended: the push title is
`{pusher} pushed {n} {commit|commits} to {branch}` where the singular
`commit` is used exactly at n = 1 and the plural `commits` for every other
n. -/
theorem C9_push_title_plural (p : Payload) :
    ((p.commits.getD []).length = 1 →
      generate_title "push" p =
        (p.pusher.bind PusherInfo.name).getD "someone" ++ " pushed " ++
        toString (p.commits.getD []).length ++ " " ++ "commit" ++ " to " ++
        lastSegment (p.ref.getD "")) ∧
    ((p.commits.getD []).length ≠ 1 →
      generate_title "push" p =
        (p.pusher.bind PusherInfo.name).getD "someone" ++ " pushed " ++
        toString (p.commits.getD []).length ++ " " ++ "commits" ++ " to " ++
        lastSegment (p.ref.getD "")) := by
  constructor <;> intro h <;> simp [generate_title, h]

/-- C9 amended witness: the one-commit payload of the counterexample gets
the singular noun. -/
theorem C9_push_title_plural_witness :
    (c9payload.commits.getD []).length = 1 ∧
    generate_title "push" c9payload =
      (c9payload.pusher.bind PusherInfo.name).getD "someone" ++ " pushed " ++
      toString (c9payload.commits.getD []).length ++ " " ++ "commit" ++
      " to " ++ lastSegment (c9payload.ref.getD "") :=
  ⟨rfl, (C9_push_title_plural c9payload).1 rfl⟩

/-- The title field of a normalized event is always the generated title. -/
theorem parse_event_title (idv now et : String) (p : Payload) :
    (parse_event idv now et p).title = generate_title et p := by
  simp only [parse_event]
  split_ifs <;> rfl

/-- A sender-less push payload whose pusher name is present, used against
C10. -/
def c10payload : Payload :=
  { emptyPayload with pusher := some { name := some "bob" } }

/-- C10 counterexample: on a sender-less push payload the actor defaults to
`unknown`, but the title actor comes from the pusher name, so the title
does not name `someone` anywhere. -/
theorem C10_counterexample :
    c10payload.sender = none ∧
    (parse_event "id0" "t0" "push" c10payload).actor = "unknown" ∧
    (parse_event "id0" "t0" "push" c10payload).title =
      "bob pushed 0 commits to " ∧
    ¬ List.IsInfix "someone".data
      (parse_event "id0" "t0" "push" c10payload).title.data :=
  ⟨rfl, rfl, rfl, by decide⟩

/-- C10 amended: for every event kind other than `push` and `pull_request`
(whose title actors come from the pusher name and the PR author), a payload
with no sender normalizes to actor `unknown` while the generated title
names the actor `someone`; the two defaults are different strings. -/
theorem C10_someone_vs_unknown (idv now et : String) (p : Payload)
    (h1 : et ≠ "push") (h2 : et ≠ "pull_request") (hs : p.sender = none) :
    (parse_event idv now et p).actor = "unknown" ∧
    (et = "create" → (parse_event idv now et p).title =
      "someone" ++ " created " ++ p.ref_type.getD "branch" ++ " " ++
        p.ref.getD "unknown") ∧
    (et = "delete" → (parse_event idv now et p).title =
      "someone" ++ " deleted " ++ p.ref_type.getD "branch" ++ " " ++
        p.ref.getD "unknown") ∧
    (et = "issues" → (parse_event idv now et p).title =
      "someone" ++ " " ++ p.action.getD "updated" ++ " issue #" ++
        numToStr (p.issue.bind IssueInfo.number) ++ ": " ++
        (p.issue.bind IssueInfo.title).getD "") ∧
    (et ≠ "create" → et ≠ "delete" → et ≠ "issues" →
      (parse_event idv now et p).title =
        "someone" ++ " triggered " ++ et ++ " event") ∧
    ("someone" : String) ≠ "unknown" := by
  refine ⟨?_, ?_, ?_, ?_, ?_, by decide⟩
  · simp only [parse_event]
    split_ifs <;> simp [hs]
  · intro he
    subst he
    rw [parse_event_title]
    simp only [generate_title, if_neg (by decide : ¬("create" : String) = "push"),
      if_neg (by decide : ¬("create" : String) = "pull_request"), if_pos rfl]
    simp [hs]
  · intro he
    subst he
    rw [parse_event_title]
    simp only [generate_title, if_neg (by decide : ¬("delete" : String) = "push"),
      if_neg (by decide : ¬("delete" : String) = "pull_request"),
      if_neg (by decide : ¬("delete" : String) = "create"), if_pos rfl]
    simp [hs]
  · intro he
    subst he
    rw [parse_event_title]
    simp only [generate_title, if_neg (by decide : ¬("issues" : String) = "push"),
      if_neg (by decide : ¬("issues" : String) = "pull_request"),
      if_neg (by decide : ¬("issues" : String) = "create"),
      if_neg (by decide : ¬("issues" : String) = "delete"), if_pos rfl]
    simp [hs]
  · intro n3 n4 n5
    rw [parse_event_title]
    simp only [generate_title, if_neg h1, if_neg h2, if_neg n3, if_neg n4,
      if_neg n5]
    simp [hs]

/-- C10 amended witness: concrete instance on a sender-less create payload. -/
theorem C10_someone_vs_unknown_witness :
    ("create" : String) ≠ "push" ∧ emptyPayload.sender = none ∧
    (parse_event "id0" "t0" "create" emptyPayload).actor = "unknown" ∧
    (parse_event "id0" "t0" "create" emptyPayload).title =
      "someone created branch unknown" := by
  have h := C10_someone_vs_unknown "id0" "t0" "create" emptyPayload
    (by decide) (by decide) rfl
  refine ⟨by decide, rfl, h.1, ?_⟩
  rw [h.2.1 rfl]
  rfl

/-- C7: whenever `detect_conflicts` fires, severity is `high` exactly when
there are at least 3 distinct conflicting files and `medium` exactly when
there are 1 or 2. -/
theorem C7_severity (now : Int) (new : REvent) (l : List REvent)
    (a : ConflictAlert) (h : detect_conflicts now new l = some a) :
    (a.severity = "high" ↔ 3 ≤ a.conflicting_files.length) ∧
    (a.severity = "medium" ↔
      (1 ≤ a.conflicting_files.length ∧ a.conflicting_files.length ≤ 2)) := by
  obtain ⟨ha, hne⟩ := detect_conflicts_spec now new l a h
  have hlen : 1 ≤ a.conflicting_files.length := by
    rw [ha, buildAlert_files]
    exact List.length_pos.mpr (sortedDedup_ne_nil hne)
  have hsev : a.severity =
      if 3 ≤ a.conflicting_files.length then "high" else "medium" := by
    rw [ha, buildAlert_severity, buildAlert_files]
  rw [hsev]
  by_cases h3 : 3 ≤ a.conflicting_files.length
  · rw [if_pos h3]
    exact ⟨⟨fun _ => h3, fun _ => rfl⟩,
      ⟨fun hc => absurd hc (by decide), fun hc => absurd h3 (by omega)⟩⟩
  · rw [if_neg h3]
    exact ⟨⟨fun hc => absurd hc (by decide), fun hc => absurd hc h3⟩,
      ⟨fun _ => ⟨hlen, by omega⟩, fun _ => rfl⟩⟩

/-- Push event on branch `a` touching files f, g, h; used as C7 witness. -/
def c7new : REvent :=
  { event_type := some "push", branch := some "a", timestamp := some 0
    files_changed := some ["f", "g", "h"] }

/-- Push event on branch `b` touching the same three files. -/
def c7cand : REvent :=
  { event_type := some "push", branch := some "b", timestamp := some 0
    files_changed := some ["f", "g", "h"] }

/-- C7 witness: a concrete three-file conflict yields severity `high`. -/
theorem C7_severity_witness :
    detect_conflicts 0 c7new [c7cand] = some (buildAlert "a" ["f", "g", "h"] ["b"]) ∧
    ((buildAlert "a" ["f", "g", "h"] ["b"]).severity = "high" ↔
      3 ≤ (buildAlert "a" ["f", "g", "h"] ["b"]).conflicting_files.length) := by
  have h : detect_conflicts 0 c7new [c7cand] =
      some (buildAlert "a" ["f", "g", "h"] ["b"]) := by decide
  exact ⟨h, (C7_severity 0 c7new [c7cand] _ h).1⟩

/-- C8: in every fired alert, the head of `branches` is the new event's
branch, the tail is exactly the set of contributing candidate branches,
sorted and duplicate-free, and the new branch occurs exactly once. -/
theorem C8_branches (now : Int) (new : REvent) (l : List REvent)
    (a : ConflictAlert) (h : detect_conflicts now new l = some a) :
    a.branches.head? = some (new.branch.getD "") ∧
    List.Sorted (· ≤ ·) a.branches.tail ∧
    a.branches.tail.Nodup ∧
    (∀ b, b ∈ a.branches.tail ↔ ∃ ev, ev ∈ l ∧
      evContributes (new.branch.getD "") (new.timestamp.getD now) 600
        (new.files_changed.getD []) ev = true ∧
      ev.branch.getD "" = b) ∧
    a.branches.count (new.branch.getD "") = 1 := by
  obtain ⟨ha, hne⟩ := detect_conflicts_spec now new l a h
  subst ha
  simp only [buildAlert_branches, List.tail_cons, List.head?_cons]
  have hnb : (new.branch.getD "") ∉ sortedDedup
      ((l.filter (evContributes (new.branch.getD "")
          (new.timestamp.getD now) 600 (new.files_changed.getD []))).map
        (fun ev => ev.branch.getD "")) := by
    rw [mem_sortedDedup]
    intro hmem
    obtain ⟨ev, hev, hbr⟩ := List.mem_map.mp hmem
    have hc := (List.mem_filter.mp hev).2
    rw [evContributes_iff] at hc
    exact hc.2.1 hbr
  refine ⟨trivial, sortedDedup_sorted _, sortedDedup_nodup _, ?_, ?_⟩
  · intro b
    rw [mem_sortedDedup, List.mem_map]
    constructor
    · rintro ⟨ev, hev, hbr⟩
      exact ⟨ev, (List.mem_filter.mp hev).1, (List.mem_filter.mp hev).2, hbr⟩
    · rintro ⟨ev, hev, hc, hbr⟩
      exact ⟨ev, List.mem_filter.mpr ⟨hev, hc⟩, hbr⟩
  · rw [List.count_cons_self, List.count_eq_zero_of_not_mem hnb]

/-- Push event on branch `z` touching file q; used as C8 witness. -/
def c8new : REvent :=
  { event_type := some "push", branch := some "z", timestamp := some 0
    files_changed := some ["q"] }

/-- Push event on branch `m` touching the same file q. -/
def c8cand : REvent :=
  { event_type := some "push", branch := some "m", timestamp := some 0
    files_changed := some ["q"] }

/-- C8 witness: a concrete conflict whose alert has the new branch first
and the conflicting branch in the tail. -/
theorem C8_branches_witness :
    detect_conflicts 0 c8new [c8cand] = some (buildAlert "z" ["q"] ["m"]) ∧
    (buildAlert "z" ["q"] ["m"]).branches.head? = some "z" := by
  have h : detect_conflicts 0 c8new [c8cand] =
      some (buildAlert "z" ["q"] ["m"]) := by decide
  exact ⟨h, (C8_branches 0 c8new [c8cand] _ h).1⟩

/-- New push event at time 0 on branch `a` touching file f. -/
def c1new : REvent :=
  { event_type := some "push", branch := some "a", timestamp := some 0
    files_changed := some ["f"] }

/-- Candidate push event on branch `b`, touching the same file, whose
timestamp 100 is strictly after the new event's timestamp 0. -/
def c1cand : REvent :=
  { event_type := some "push", branch := some "b", timestamp := some 100
    files_changed := some ["f"] }

/-- C1 counterexample: a candidate whose timestamp is strictly after the
new event's timestamp is not skipped; it contributes its branch and file
to the alert. -/
theorem C1_counterexample :
    c1new.timestamp = some 0 ∧ c1cand.timestamp = some 100 ∧
    (detect_conflicts 0 c1new [c1cand]).map ConflictAlert.branches =
      some ["a", "b"] ∧
    (detect_conflicts 0 c1new [c1cand]).map ConflictAlert.conflicting_files =
      some ["f"] :=
  ⟨rfl, rfl, by decide, by decide⟩

/-- C1 amended: the candidate time filter is one-sided: a candidate (push,
different non-empty branch, parseable timestamp, overlapping files) is
considered if and only if `newTs - candTs ≤ 600`; the difference may be
negative, so candidates timestamped after the new event always pass the
time check and contribute their branch to the alert. -/
theorem C1_window_one_sided (now : Int) (new : REvent) (l : List REvent)
    (ev : REvent) (ts : Int)
    (hev : ev ∈ l)
    (hnewpush : new.event_type = some "push")
    (hnf : new.files_changed.getD [] ≠ [])
    (hpush : ev.event_type = some "push")
    (hbr : ev.branch.getD "" ≠ new.branch.getD "")
    (hbne : ev.branch.getD "" ≠ "")
    (hts : ev.timestamp = some ts)
    (hov : evOverlap (new.files_changed.getD []) ev ≠ []) :
    (evContributes (new.branch.getD "") (new.timestamp.getD now) 600
        (new.files_changed.getD []) ev = true ↔
      new.timestamp.getD now - ts ≤ 600) ∧
    (new.timestamp.getD now - ts ≤ 600 →
      ∃ a, detect_conflicts now new l = some a ∧
        ev.branch.getD "" ∈ a.branches) := by
  constructor
  · rw [evContributes_iff]
    constructor
    · rintro ⟨-, -, -, ⟨ts2, hts2, hle⟩, -⟩
      rw [hts] at hts2
      rw [← Option.some.inj hts2] at hle
      exact hle
    · intro hle
      exact ⟨hpush, hbr, hbne, ⟨ts, hts, hle⟩, hov⟩
  · intro hle
    have hcontrib : evContributes (new.branch.getD "")
        (new.timestamp.getD now) 600 (new.files_changed.getD []) ev = true :=
      (evContributes_iff _ _ _ _ _).mpr ⟨hpush, hbr, hbne, ⟨ts, hts, hle⟩, hov⟩
    have hevf : ev ∈ l.filter (evContributes (new.branch.getD "")
        (new.timestamp.getD now) 600 (new.files_changed.getD [])) :=
      List.mem_filter.mpr ⟨hev, hcontrib⟩
    have hne : (l.filter (evContributes (new.branch.getD "")
        (new.timestamp.getD now) 600 (new.files_changed.getD []))).flatMap
        (evOverlap (new.files_changed.getD [])) ≠ [] := by
      intro hempty
      obtain ⟨x, hx⟩ := List.exists_mem_of_ne_nil _ hov
      have hmem : x ∈ (l.filter (evContributes (new.branch.getD "")
          (new.timestamp.getD now) 600 (new.files_changed.getD []))).flatMap
          (evOverlap (new.files_changed.getD [])) :=
        List.mem_flatMap.mpr ⟨ev, hevf, hx⟩
      rw [hempty] at hmem
      exact List.not_mem_nil x hmem
    have hdet : detect_conflicts now new l = some
        (buildAlert (new.branch.getD "")
          ((l.filter (evContributes (new.branch.getD "")
              (new.timestamp.getD now) 600 (new.files_changed.getD []))).flatMap
            (evOverlap (new.files_changed.getD [])))
          ((l.filter (evContributes (new.branch.getD "")
              (new.timestamp.getD now) 600 (new.files_changed.getD []))).map
            (fun e => e.branch.getD ""))) := by
      simp [detect_conflicts, foldl_conflictStep, hnewpush, hnf, hne]
    refine ⟨_, hdet, ?_⟩
    rw [buildAlert_branches]
    exact List.mem_cons_of_mem _ (mem_sortedDedup.mpr
      (List.mem_map.mpr ⟨ev, hevf, rfl⟩))

/-- C1 amended witness: the candidate of `C1_counterexample`, 100 seconds in
the future of the new event, passes the one-sided window check and ends up
in the alert. -/
theorem C1_window_one_sided_witness :
    evContributes "a" 0 600 ["f"] c1cand = true ∧
    ∃ a, detect_conflicts 0 c1new [c1cand] = some a ∧ "b" ∈ a.branches := by
  have h := C1_window_one_sided 0 c1new [c1cand] c1cand 100
    (by decide) rfl (by decide) rfl (by decide) (by decide) rfl (by decide)
  exact ⟨h.1.mpr (by decide), h.2 (by decide)⟩

/-- A connection whose accept succeeds, whose every seed send fails, and
whose broadcast sends succeed; used against C2. -/
def c2beh : Nat → ConnBehavior :=
  fun _ => { acceptOk := true, seedOk := fun _ => false, sendOk := fun _ => true }

/-- C2 counterexample: a connection whose first seed delivery fails is
still registered in the active set when `connect` returns (the source adds
it to the set before seeding and only breaks out of the seed loop), and it
still receives the next broadcast. -/
theorem C2_counterexample :
    wsConnect c2beh [] 0 [(5 : Nat)] = Except.ok ([0], []) ∧
    (wsBroadcast c2beh [0] "m").2 = [0] :=
  ⟨rfl, rfl⟩

/-- C2 amended: a failure during the seed phase stops the remaining seed
deliveries (the first k sends succeed, the k-th failure delivers exactly
the first k of the at most 10 seed events), but does not abort
registration: the connection is still a member of the active set after
`connect` returns. -/
theorem C2_seed_failure_keeps_registration {α : Type} (beh : Nat → ConnBehavior)
    (st : List Nat) (w : Nat) (recentEvents : List α) (k : Nat)
    (hacc : (beh w).acceptOk = true)
    (hj : ∀ j, j < k → (beh w).seedOk j = true)
    (hk : (beh w).seedOk k = false) :
    wsConnect beh st w recentEvents =
      Except.ok (wsAdd st w, (recentEvents.take 10).take k) ∧
    w ∈ wsAdd st w := by
  constructor
  · rw [wsConnect, if_pos hacc, seedSend_take (beh w).seedOk k _ 0
      (fun j hjk => by simpa using hj j hjk) (by simpa using hk)]
  · rw [wsAdd]
    by_cases hw : w ∈ st
    · rw [if_pos hw]
      exact hw
    · rw [if_neg hw]
      exact List.mem_append_right st (List.mem_singleton_self w)

/-- Behavior for the C2 witness: seed send 0 succeeds, seed send 1 fails. -/
def c2beh2 : Nat → ConnBehavior :=
  fun _ => { acceptOk := true, seedOk := fun j => j = 0, sendOk := fun _ => true }

/-- C2 amended witness: with three seed events and a failure at the second
send, exactly the first event is delivered and the connection stays
registered. -/
theorem C2_seed_failure_keeps_registration_witness :
    wsConnect c2beh2 [] 3 [(8 : Nat), 9, 10] = Except.ok ([3], [8]) ∧
    3 ∈ wsAdd [] 3 := by
  have h := C2_seed_failure_keeps_registration c2beh2 [] 3 [(8 : Nat), 9, 10] 1
    rfl (by decide) (by decide)
  exact ⟨h.1, h.2⟩

/-- C3: broadcast attempts delivery to every active connection; a
connection whose delivery fails is removed from the active set in the same
pass and not delivered to, a connection whose delivery succeeds receives
the message and stays active, and the outcome for each connection is
independent of every other connection (the behavior oracle is arbitrary
elsewhere); `wsBroadcast` is a total function, so no delivery failure
fails the broadcast itself. -/
theorem C3_broadcast (beh : Nat → ConnBehavior) (st : List Nat)
    (message : String) (w : Nat) (hw : w ∈ st) :
    ((beh w).sendOk message = true →
      w ∈ (wsBroadcast beh st message).1 ∧ w ∈ (wsBroadcast beh st message).2) ∧
    ((beh w).sendOk message = false →
      w ∉ (wsBroadcast beh st message).1 ∧ w ∉ (wsBroadcast beh st message).2) := by
  constructor
  · intro hok
    constructor
    · rw [wsBroadcast]
      refine List.mem_filter.mpr ⟨hw, ?_⟩
      simp only [decide_eq_true_eq]
      intro hdead
      have := (List.mem_filter.mp hdead).2
      rw [hok] at this
      simp at this
    · exact List.mem_filter.mpr ⟨hw, hok⟩
  · intro hfail
    constructor
    · rw [wsBroadcast]
      intro hmem
      have hnd := (List.mem_filter.mp hmem).2
      simp only [decide_eq_true_eq] at hnd
      exact hnd (List.mem_filter.mpr ⟨hw, by simp [hfail]⟩)
    · intro hmem
      have := (List.mem_filter.mp hmem).2
      rw [hfail] at this
      simp at this

/-- Behavior for the C3 witness: connection 0 delivers, connection 1
throws on every send. -/
def c3beh : Nat → ConnBehavior :=
  fun w => { acceptOk := true, seedOk := fun _ => true
             sendOk := fun _ => w = 0 }

/-- C3 witness: with one live and one dead connection, the live one
receives the message and stays, the dead one is removed and receives
nothing. -/
theorem C3_broadcast_witness :
    (0 ∈ ([0, 1] : List Nat) ∧
      0 ∈ (wsBroadcast c3beh [0, 1] "m").1 ∧
      0 ∈ (wsBroadcast c3beh [0, 1] "m").2) ∧
    (1 ∈ ([0, 1] : List Nat) ∧
      1 ∉ (wsBroadcast c3beh [0, 1] "m").1 ∧
      1 ∉ (wsBroadcast c3beh [0, 1] "m").2) := by
  have h0 := (C3_broadcast c3beh [0, 1] "m" 0 (by decide)).1 (by decide)
  have h1 := (C3_broadcast c3beh [0, 1] "m" 1 (by decide)).2 (by decide)
  exact ⟨⟨by decide, h0.1, h0.2⟩, ⟨by decide, h1.1, h1.2⟩⟩

/-- C5: `_retry` with the source's parameters (3 attempts, fixed delay of
one time unit between attempts) returns the value of the first successful
attempt, sleeping once per preceding failure; when all 3 attempts fail it
surfaces the last failure after exactly two inter-attempt sleeps; and each
of `publish_event` (append), `get_recent_events` (recent read) and
`get_stats` (statistics read) is exactly this retry loop wrapped around
its backend body. -/
theorem C5_retry {E A : Type} (f : Nat → Except E A) :
    (∀ k, k < 3 → (∀ j, j < k → (f j).isOk = false) → (f k).isOk = true →
      retryRun f 3 1 = (exceptToOpt (f k), List.replicate k 1)) ∧
    ((∀ j, j < 3 → (f j).isOk = false) →
      retryRun f 3 1 = (exceptToOpt (f 2), [1, 1])) ∧
    (∀ (att : Nat → Bool) (st : List A) (e : A),
      publish_event att st e = retryRun
        (fun k => if att k then Except.ok (publish_pipeline st e)
                  else Except.error ()) 3 1) ∧
    (∀ (att : Nat → Bool) (st : List A) (count : Int),
      get_recent_events att st count = retryRun
        (fun k => if att k then Except.ok (get_recent_body st count)
                  else Except.error ()) 3 1) ∧
    (∀ (att : Nat → Bool) (st : List StoredEvent) (todayStart hourAgo : Int),
      get_stats att st todayStart hourAgo = retryRun
        (fun k => if att k then Except.ok (statsOf st todayStart hourAgo)
                  else Except.error ()) 3 1) := by
  refine ⟨?_, ?_, fun _ _ _ => rfl, fun _ _ _ => rfl, fun _ _ _ _ => rfl⟩
  · intro k hk hbefore hok
    interval_cases k
    · cases hf0 : f 0 with
      | ok a => simp [retryRun, retryAux, hf0, exceptToOpt]
      | error e =>
        rw [hf0] at hok
        simp [Except.isOk, Except.toBool] at hok
    · have h0 : (f 0).isOk = false := hbefore 0 (by omega)
      cases hf0 : f 0 with
      | ok a =>
        rw [hf0] at h0
        simp [Except.isOk, Except.toBool] at h0
      | error e0 =>
        cases hf1 : f 1 with
        | ok a => simp [retryRun, retryAux, hf0, hf1, exceptToOpt]
        | error e1 =>
          rw [hf1] at hok
          simp [Except.isOk, Except.toBool] at hok
    · have h0 : (f 0).isOk = false := hbefore 0 (by omega)
      have h1 : (f 1).isOk = false := hbefore 1 (by omega)
      cases hf0 : f 0 with
      | ok a =>
        rw [hf0] at h0
        simp [Except.isOk, Except.toBool] at h0
      | error e0 =>
        cases hf1 : f 1 with
        | ok a =>
          rw [hf1] at h1
          simp [Except.isOk, Except.toBool] at h1
        | error e1 =>
          cases hf2 : f 2 with
          | ok a => simp [retryRun, retryAux, hf0, hf1, hf2, exceptToOpt,
              List.replicate]
          | error e2 =>
            rw [hf2] at hok
            simp [Except.isOk, Except.toBool] at hok
  · intro hall
    have h0 : (f 0).isOk = false := hall 0 (by omega)
    have h1 : (f 1).isOk = false := hall 1 (by omega)
    have h2 : (f 2).isOk = false := hall 2 (by omega)
    cases hf0 : f 0 with
    | ok a =>
      rw [hf0] at h0
      simp [Except.isOk, Except.toBool] at h0
    | error e0 =>
      cases hf1 : f 1 with
      | ok a =>
        rw [hf1] at h1
        simp [Except.isOk, Except.toBool] at h1
      | error e1 =>
        cases hf2 : f 2 with
        | ok a =>
          rw [hf2] at h2
          simp [Except.isOk, Except.toBool] at h2
        | error e2 => simp [retryRun, retryAux, hf0, hf1, hf2, exceptToOpt]

/-- Attempt oracle failing twice and succeeding on the third attempt. -/
def c5att : Nat → Except String Nat :=
  fun k => if k = 2 then Except.ok 7 else Except.error "x"

/-- C5 witness: with failures on the first two attempts and success on the
third, the retry loop returns the third result after two unit sleeps. -/
theorem C5_retry_witness :
    (c5att 0).isOk = false ∧ (c5att 1).isOk = false ∧
    (c5att 2).isOk = true ∧
    retryRun c5att 3 1 = (Except.ok 7, [1, 1]) := by
  have hb : ∀ j, j < 2 → (c5att j).isOk = false := by
    intro j hj
    interval_cases j <;> rfl
  have h := (C5_retry c5att).1 2 (by omega) hb rfl
  refine ⟨rfl, rfl, rfl, ?_⟩
  rw [h]
  rfl

/-- For a positive requested count, `LRANGE key 0 (count-1)` is a prefix of
the list of the requested length. -/
theorem lrange_zero_of_pos {α : Type} (l : List α) (count : Int)
    (h : 1 ≤ count) : lrange l 0 (count - 1) = l.take count.toNat := by
  simp only [lrange, redisIdx]
  rw [if_neg (by omega : ¬((0 : Int) < 0)), if_neg (by omega : ¬(count - 1 < 0))]
  rw [if_neg (by omega : ¬(count - 1 < max 0 0))]
  have h1 : max (0 : Int) 0 = 0 := by omega
  rw [h1]
  have h2 : count - 1 - 0 + 1 = count := by ring
  rw [h2]
  have h3 : (0 : Int).toNat = 0 := rfl
  rw [h3, List.drop_zero]

/-- The state transition of a successful `publish_event`: push to front and
trim to capacity 100. -/
theorem appendEvent_eq {α : Type} (st : List α) (e : α) :
    appendEvent st e = (e :: st).take 100 := by
  unfold appendEvent publish_pipeline ltrim
  rw [lrange_zero_of_pos _ ((MAX_RECENT_EVENTS : Int)) (by decide)]
  rfl

/-- Replaying any sequence of appends on a state within capacity leaves the
100 newest items, newest first. -/
theorem foldl_appendEvent {α : Type} (evs : List α) (st : List α)
    (hst : st.length ≤ 100) :
    evs.foldl appendEvent st = (evs.reverse ++ st).take 100 := by
  induction evs generalizing st with
  | nil => simp [List.take_of_length_le hst]
  | cons e t ih =>
    rw [List.foldl_cons, appendEvent_eq, ih ((e :: st).take 100)
      (by simp [List.length_take])]
    rw [List.reverse_cons, List.append_assoc]
    simp only [List.singleton_append]
    rw [List.take_append_eq_append_take, List.take_append_eq_append_take,
      List.take_take]
    have hmin : min (100 - t.reverse.length) 100 = 100 - t.reverse.length := by
      omega
    rw [hmin]

/-- C6 counterexample: with the list holding one appended event, a request
for 0 recent events returns that event: `LRANGE key 0 (-1)` addresses the
whole list, so more than `min(0, 100) = 0` events come back. -/
theorem C6_counterexample :
    appendEvent ([] : List Nat) 7 = [7] ∧
    get_recent_body (appendEvent ([] : List Nat) 7) 0 = [7] ∧
    (get_recent_body (appendEvent ([] : List Nat) 7) 0).length = 1 ∧
    min ((0 : Int).toNat) 100 = 0 :=
  ⟨by decide, by decide, by decide, by decide⟩

/-- C6 amended: for every requested count n at least 1 and every sequence
of appended events, the recent read returns exactly the `min(n, 100)` most
recently appended events, newest first (so at most `min(n, 100)` of them);
in particular after appending 105 distinct events the read of 100 returns
the 100 newest and none of the 5 oldest. For n = 0 the stop index -1 makes
the read return the whole stored window instead. -/
theorem C6_recent_bounded {α : Type} (n : Int) (hn : 1 ≤ n) (evs : List α) :
    get_recent_body (evs.foldl appendEvent []) n =
      (evs.reverse).take (min n.toNat 100) ∧
    (get_recent_body (evs.foldl appendEvent []) n).length ≤ min n.toNat 100 ∧
    (∀ e, evs.Nodup → evs.length = 105 → e ∈ evs.take 5 →
      e ∉ get_recent_body (evs.foldl appendEvent []) 100) := by
  have hstate : evs.foldl appendEvent [] = (evs.reverse).take 100 := by
    rw [foldl_appendEvent evs [] (by simp)]
    simp
  have hmain : get_recent_body (evs.foldl appendEvent []) n =
      (evs.reverse).take (min n.toNat 100) := by
    rw [get_recent_body, lrange_zero_of_pos _ n hn, hstate, List.take_take]
  refine ⟨hmain, ?_, ?_⟩
  · rw [hmain, List.length_take]
    exact Nat.min_le_left _ _
  · intro e hnd hlen hmem hcon
    have h100 : get_recent_body (evs.foldl appendEvent []) 100 =
        (evs.reverse).take 100 := by
      rw [get_recent_body, lrange_zero_of_pos _ 100 (by omega), hstate,
        List.take_take]
      rfl
    rw [h100] at hcon
    have hrev : evs.reverse = (evs.drop 5).reverse ++ (evs.take 5).reverse := by
      conv_lhs => rw [← List.take_append_drop 5 evs]
      rw [List.reverse_append]
    have hl : (evs.drop 5).reverse.length = 100 := by
      simp [hlen]
    have hsplit : evs.reverse.take 100 = (evs.drop 5).reverse := by
      rw [hrev, ← hl, List.take_left]
    rw [hsplit, List.mem_reverse] at hcon
    exact List.disjoint_take_drop hnd (le_refl 5) hmem hcon

/-- C6 amended witness: two appended events, a read of 1 returns the newest
one. -/
theorem C6_recent_bounded_witness :
    (1 : Int) ≤ 1 ∧
    get_recent_body ((["a", "b"] : List String).foldl appendEvent []) 1 =
      (["a", "b"] : List String).reverse.take (min (1 : Int).toNat 100) :=
  ⟨by decide, (C6_recent_bounded 1 (by decide) ["a", "b"]).1⟩
